import Mathlib

/-!
Verification of the undergraduate-assistant front end.

The TypeScript sources are embedded shallowly:
* JS strings are Lean `String`s; `String.prototype.trim` is modelled by
  `jsTrim` (drop whitespace from both ends), JS string truthiness by
  `jsTruthy` (non-empty).
* React component state becomes explicit state records
  (`FormState` for `UserInfoForm`, `AppModel` for `App`); event handlers
  become functions on those records, and the UI event loop becomes a
  fold of events over the handlers.
* `fetch` responses are modelled by a `Response` record carrying the
  HTTP `ok`/`status` flags and the (possibly unparsable) JSON body.
-/

/-- JS truthiness of a string: every string except `""` is truthy. -/
def jsTruthy (s : String) : Bool := s != ""

/-- JS `a || b` restricted to strings: `a` when truthy, else `b`. -/
def jsOr (a b : String) : String := if jsTruthy a then a else b

/-- JS `String.prototype.trim` on the character list: drop whitespace
from the front, then from the back. -/
def jsTrimChars (l : List Char) : List Char :=
  List.rdropWhile Char.isWhitespace (List.dropWhile Char.isWhitespace l)

/-- JS `String.prototype.trim`. -/
def jsTrim (s : String) : String := String.mk (jsTrimChars s.data)

/-- The `UserInfo` record of `types/index.ts`. -/
structure UserInfo where
  name : String
  major : String
  research_interests : List String
  skills : List String
deriving DecidableEq

/-- The `ProfessorInfo` record of `types/index.ts`; the four optional
contact fields are `Option`s. -/
structure ProfessorInfo where
  name : String
  title : String
  position : String
  research_interests : List String
  location : String
  email : Option String
  phone : Option String
  personal_website : Option String
  google_scholar : Option String
deriving DecidableEq

/-- The `ProfessorRecommendationResponse` record of `types/index.ts`.
`match_count` is a JSON integer reported by the server. -/
structure ProfessorRecommendationResponse where
  recommendations : List ProfessorInfo
  match_count : Int
deriving DecidableEq

/-- The `ResearchAreasResponse` record of `types/index.ts`. -/
structure ResearchAreasResponse where
  research_areas : List String
  count : Int
deriving DecidableEq

/-- Local state of the `UserInfoForm` component (`UserInfoForm.tsx`):
the draft `formData` plus the two tag-entry inputs, the research-area
autocomplete data and its loading flag. -/
structure FormState where
  formData : UserInfo
  currentInterest : String
  currentSkill : String
  availableResearchAreas : List String
  filteredResearchAreas : List String
  showResearchDropdown : Bool
  loadingResearchAreas : Bool
deriving DecidableEq

/-- Initial `useState` values of `UserInfoForm`. -/
def initialFormState : FormState :=
  { formData := { name := "", major := "", research_interests := [], skills := [] }
    currentInterest := ""
    currentSkill := ""
    availableResearchAreas := []
    filteredResearchAreas := []
    showResearchDropdown := false
    loadingResearchAreas := true }

/-- The hard-coded `fallbackAreas` list of the research-area fetch
effect in `UserInfoForm.tsx`. -/
def fallbackResearchAreas : List String :=
  [ "Artificial Intelligence"
  , "Machine Learning"
  , "Data Science"
  , "Computer Vision"
  , "Natural Language Processing"
  , "Cybersecurity"
  , "Software Engineering"
  , "Human-Computer Interaction"
  , "Robotics"
  , "Computer Networks" ]

/-- The `fetchResearchAreas` effect run on mount: on a successful fetch
the server list is stored, on any failure (network or JSON) the fetch
degrades to `fallbackResearchAreas`; the failure is only logged via
`console.error`, no error is stored in the component state (which has
no error field at all). The `finally` block clears
`loadingResearchAreas` in both cases. -/
def fetchResearchAreasEffect (result : Except String ResearchAreasResponse)
    (s : FormState) : FormState :=
  match result with
  | Except.ok response =>
    { s with availableResearchAreas := response.research_areas
             filteredResearchAreas := response.research_areas
             loadingResearchAreas := false }
  | Except.error _ =>
    { s with availableResearchAreas := fallbackResearchAreas
             filteredResearchAreas := fallbackResearchAreas
             loadingResearchAreas := false }

/-- The `disabled={loadingResearchAreas}` attribute on the research
interest input. -/
def interestInputDisabled (s : FormState) : Bool := s.loadingResearchAreas

/-- Contiguous-substring search on character lists. -/
def jsIncludesAux (needle : List Char) : List Char → Bool
  | [] => needle.isPrefixOf []
  | c :: cs => needle.isPrefixOf (c :: cs) || jsIncludesAux needle cs

/-- JS `hay.includes(needle)` substring test. -/
def jsIncludesSubstr (hay needle : String) : Bool :=
  jsIncludesAux needle.data hay.data

/-- `filterResearchAreas` of `UserInfoForm.tsx`: empty (after trim)
input restores the full list, otherwise case-insensitive substring
filtering. -/
def filterResearchAreas (available : List String) (input : String) : List String :=
  if jsTruthy (jsTrim input) = false then available
  else available.filter (fun area => jsIncludesSubstr area.toLower input.toLower)

/-- `handleResearchInputChange` of `UserInfoForm.tsx`. -/
def handleResearchInputChange (s : FormState) (value : String) : FormState :=
  { s with currentInterest := value
           filteredResearchAreas := filterResearchAreas s.availableResearchAreas value
           showResearchDropdown := true }

/-- The resolution `const interestToAdd = interest || currentInterest`
in `addResearchInterest` (`interest` is an optional parameter, and an
empty string is falsy). -/
def interestToAdd (s : FormState) (interest : Option String) : String :=
  match interest with
  | some i => jsOr i s.currentInterest
  | none => s.currentInterest

/-- `addResearchInterest` of `UserInfoForm.tsx`: appends the trimmed
value when it is non-empty and not already present, clearing the input
and closing the dropdown; otherwise does nothing. -/
def addResearchInterest (s : FormState) (interest : Option String) : FormState :=
  let t := interestToAdd s interest
  if jsTruthy (jsTrim t) && !(s.formData.research_interests.contains (jsTrim t)) then
    { s with
      formData := { s.formData with
        research_interests := s.formData.research_interests ++ [jsTrim t] }
      currentInterest := ""
      showResearchDropdown := false }
  else s

/-- `removeResearchInterest` of `UserInfoForm.tsx`: keeps the entries
that differ from `interest` (exact `!==` comparison). -/
def removeResearchInterest (s : FormState) (interest : String) : FormState :=
  { s with formData := { s.formData with
      research_interests := s.formData.research_interests.filter (fun i => i != interest) } }

/-- `addSkill` of `UserInfoForm.tsx`. -/
def addSkill (s : FormState) : FormState :=
  if jsTruthy (jsTrim s.currentSkill) && !(s.formData.skills.contains (jsTrim s.currentSkill)) then
    { s with
      formData := { s.formData with
        skills := s.formData.skills ++ [jsTrim s.currentSkill] }
      currentSkill := "" }
  else s

/-- `removeSkill` of `UserInfoForm.tsx`. -/
def removeSkill (s : FormState) (skill : String) : FormState :=
  { s with formData := { s.formData with
      skills := s.formData.skills.filter (fun x => x != skill) } }

/-- `isFormValid` of `UserInfoForm.tsx`: JS truthiness of
`formData.name && formData.major`. -/
def isFormValid (formData : UserInfo) : Bool :=
  jsTruthy formData.name && jsTruthy formData.major

/-- `handleSubmit` of `UserInfoForm.tsx`: `some formData` means the
`onSubmit` callback is invoked with `formData`, `none` that it is not. -/
def handleSubmit (formData : UserInfo) : Option UserInfo :=
  if jsTruthy formData.name && jsTruthy formData.major then some formData else none

/-- The tag-editing events a user can fire on `UserInfoForm`: typing in
the two tag inputs, the add actions (the research-interest add comes
from the Add button or the Enter key with `none`, or from an
autocomplete item click with `some area`), and the per-tag remove
buttons. -/
inductive FormEvent where
  | inputInterest (value : String)
  | inputSkill (value : String)
  | addInterest (interest : Option String)
  | removeInterest (value : String)
  | addSkill
  | removeSkill (value : String)
deriving DecidableEq

/-- Dispatch of a `FormEvent` to the corresponding handler of
`UserInfoForm.tsx`. -/
def applyFormEvent (s : FormState) : FormEvent → FormState
  | FormEvent.inputInterest value => handleResearchInputChange s value
  | FormEvent.inputSkill value => { s with currentSkill := value }
  | FormEvent.addInterest interest => addResearchInterest s interest
  | FormEvent.removeInterest value => removeResearchInterest s value
  | FormEvent.addSkill => addSkill s
  | FormEvent.removeSkill value => removeSkill s value

/-- The `AppState` union type of `App.tsx`. -/
inductive AppState where
  | form
  | loading
  | results
  | error
deriving DecidableEq

/-- The `useState` pieces of the `App` component. -/
structure AppModel where
  state : AppState
  professors : List ProfessorInfo
  error : String
  userInfo : Option UserInfo
deriving DecidableEq

/-- Initial `App` state. -/
def initApp : AppModel :=
  { state := AppState.form, professors := [], error := "", userInfo := none }

/-- The synchronous head of `handleUserSubmit`: enter `loading`, clear
the error, store the submitted `UserInfo` (the awaited request is
modelled by a later `Event.success`/`Event.failure`). -/
def handleUserSubmitStart (userData : UserInfo) (s : AppModel) : AppModel :=
  { s with state := AppState.loading, error := "", userInfo := some userData }

/-- The `try` continuation of `handleUserSubmit` once the API call
resolves: store the recommendations and enter `results` (the two
source branches store `[]` and `response.recommendations` respectively). -/
def handleUserSubmitSuccess (response : ProfessorRecommendationResponse)
    (s : AppModel) : AppModel :=
  if response.recommendations.length == 0 then
    { s with professors := [], state := AppState.results }
  else
    { s with professors := response.recommendations, state := AppState.results }

/-- The `catch` continuation of `handleUserSubmit`: store the thrown
message and enter `error`. -/
def handleUserSubmitFailure (message : String) (s : AppModel) : AppModel :=
  { s with error := message, state := AppState.error }

/-- `handleBack` of `App.tsx`. -/
def handleBack (s : AppModel) : AppModel :=
  { s with state := AppState.form, error := "", professors := [] }

/-- `handleRetry` of `App.tsx`, paired with the `POST /prof_info`
request it issues (`none` when no request leaves the client). -/
def handleRetry (s : AppModel) : AppModel × Option UserInfo :=
  match s.userInfo with
  | some u => (handleUserSubmitStart u s, some u)
  | none => ({ s with state := AppState.form }, none)

/-- The UI events of the `App` page. `submit` is only reachable while
the form is rendered, a response only while a request is in flight
(`loading`), `back` only from the `results` view and `retry` only from
the `error` view — the views of the other states render no such
control. -/
inductive Event where
  | submit (userData : UserInfo)
  | success (response : ProfessorRecommendationResponse)
  | failure (message : String)
  | back
  | retry
deriving DecidableEq

/-- Discriminator for `Event.submit`. -/
def Event.isSubmit : Event → Bool
  | Event.submit _ => true
  | _ => false

/-- Discriminator for `Event.success`. -/
def Event.isSuccess : Event → Bool
  | Event.success _ => true
  | _ => false

/-- Discriminator for `Event.failure`. -/
def Event.isFailure : Event → Bool
  | Event.failure _ => true
  | _ => false

/-- One step of the `App` orchestrator: the new component state
together with the `POST /prof_info` request the step issues (`none`
when no network request leaves the client). An event arriving in a
state whose view does not offer it is a no-op. -/
def step (s : AppModel) : Event → AppModel × Option UserInfo
  | Event.submit userData =>
    if s.state = AppState.form then (handleUserSubmitStart userData s, some userData)
    else (s, none)
  | Event.success response =>
    if s.state = AppState.loading then (handleUserSubmitSuccess response s, none)
    else (s, none)
  | Event.failure message =>
    if s.state = AppState.loading then (handleUserSubmitFailure message s, none)
    else (s, none)
  | Event.back =>
    if s.state = AppState.results then (handleBack s, none)
    else (s, none)
  | Event.retry =>
    if s.state = AppState.error then handleRetry s
    else (s, none)

/-- Run a sequence of events from a state, ignoring the issued
requests. -/
def appRun (s : AppModel) (events : List Event) : AppModel :=
  events.foldl (fun t e => (step t e).1) s

/-- JS truthiness of the optional `error` prop of `ProfessorDisplay`
(`undefined` and `""` are falsy). -/
def jsTruthyOpt : Option String → Bool
  | none => false
  | some s => jsTruthy s

/-- The four top-level render branches of `ProfessorDisplay.tsx`. -/
inductive DisplayBranch where
  | loading
  | error
  | noResults
  | cards
deriving DecidableEq

/-- Branch selection of `ProfessorDisplay.tsx`, in source order:
`loading` first, then a truthy `error`, then the empty professor list,
then the populated grid. -/
def professorDisplayBranch (professors : List ProfessorInfo) (loading : Bool)
    (error : Option String) : DisplayBranch :=
  if loading then DisplayBranch.loading
  else if jsTruthyOpt error then DisplayBranch.error
  else if professors.length == 0 then DisplayBranch.noResults
  else DisplayBranch.cards

/-- What `App.tsx` renders in its `main` block: the form, or a
`ProfessorDisplay` with the props the current state passes. -/
inductive MainView where
  | form
  | display (branch : DisplayBranch)
deriving DecidableEq

/-- The `App` render: `form` renders `UserInfoForm`; `loading` renders
`ProfessorDisplay` with an empty list and `loading={true}`; `results`
passes the stored professors; `error` passes an empty list and the
stored error message. -/
def renderMain (s : AppModel) : MainView :=
  match s.state with
  | AppState.form => MainView.form
  | AppState.loading => MainView.display (professorDisplayBranch [] true none)
  | AppState.results => MainView.display (professorDisplayBranch s.professors false none)
  | AppState.error => MainView.display (professorDisplayBranch [] false (some s.error))

/-- The data a professor card of `ProfessorDisplay.tsx` shows: the
header fields, the interest tags produced by
`research_interests.slice(0, 5)`, the `+N more` tag rendered when
`research_interests.length > 5`, and the location. -/
structure ProfessorCard where
  name : String
  title : String
  position : String
  interestTags : List String
  moreTag : Option Nat
  location : String
deriving DecidableEq

/-- Rendering of one professor card. -/
def renderProfessorCard (p : ProfessorInfo) : ProfessorCard :=
  { name := p.name
    title := p.title
    position := p.position
    interestTags := p.research_interests.take 5
    moreTag :=
      if 5 < p.research_interests.length then some (p.research_interests.length - 5)
      else none
    location := p.location }

/-- The `professors.map(...)` grid of the populated branch. -/
def professorsGrid (professors : List ProfessorInfo) : List ProfessorCard :=
  professors.map renderProfessorCard

/-- A minimal JSON value AST for the parsed bodies the API client
handles. -/
inductive Json where
  | null
  | bool (b : Bool)
  | num (n : Int)
  | str (s : String)
  | arr (elems : List Json)
  | obj (fields : List (String × Json))

/-- JS property lookup on a parsed JSON object (`JSON.parse` keeps the
last of duplicate keys). -/
def lookupJsField (fields : List (String × Json)) (key : String) : Option Json :=
  (fields.reverse.find? (fun f => f.1 == key)).map (fun f => f.2)

/-- `errorData.detail`: a property access that yields `undefined`
(`none`) when the parsed body is not an object or lacks the key. -/
def extractDetailJson : Json → Option Json
  | Json.obj fields => lookupJsField fields "detail"
  | _ => none

mutual

/-- JS `String(v)` coercion of a JSON value, as used by the `Error`
constructor on a non-string `detail`. -/
def jsonToJsString : Json → String
  | Json.null => "null"
  | Json.bool true => "true"
  | Json.bool false => "false"
  | Json.num n => toString n
  | Json.str s => s
  | Json.arr elems => jsonListToJsString elems
  | Json.obj _ => "[object Object]"

/-- JS `Array.prototype.toString`: comma-joined element coercions. -/
def jsonListToJsString : List Json → String
  | [] => ""
  | [x] => jsonToJsString x
  | x :: y :: xs => jsonToJsString x ++ "," ++ jsonListToJsString (y :: xs)

end

/-- The message of `new Error(errorData.detail)`: an `undefined`
argument leaves the message empty, any other value is coerced by
`String(...)`. -/
def jsErrorMessage (detail : Option Json) : String :=
  match detail with
  | none => ""
  | some v => jsonToJsString v

/-- A `fetch` response as `ApiService.handleResponse` consumes it:
the `ok` flag, the numeric `status`, and the outcome of
`response.json()` (`none` when the body is unparsable and the parse
promise rejects). -/
structure Response where
  ok : Bool
  status : Nat
  body : Option Json

/-- `ApiService.handleResponse`: on a non-ok response, parse the error
body — substituting `{detail: "HTTP error! status: N"}` when the parse
fails — and reject with `new Error(errorData.detail)`; on an ok
response, resolve with the parsed body (the source returns
`response.json()`, whose own parse outcome is `r.body`). -/
def handleResponse (r : Response) : Except String (Option Json) :=
  if !r.ok then
    match r.body with
    | some errorData => Except.error (jsErrorMessage (extractDetailJson errorData))
    | none => Except.error ("HTTP error! status: " ++ toString r.status)
  else Except.ok r.body

/-- `ApiService.createUser`, applied to the response its `fetch`
produced. -/
def createUser (response : Response) : Except String (Option Json) :=
  handleResponse response

/-- `ApiService.getUser`. -/
def getUser (response : Response) : Except String (Option Json) :=
  handleResponse response

/-- `ApiService.getProfessorRecommendations`. -/
def getProfessorRecommendations (response : Response) : Except String (Option Json) :=
  handleResponse response

/-- `ApiService.searchProfessors`. -/
def searchProfessors (response : Response) : Except String (Option Json) :=
  handleResponse response

/-- `ApiService.getAllProfessors`. -/
def getAllProfessors (response : Response) : Except String (Option Json) :=
  handleResponse response

/-- `ApiService.healthCheck`. -/
def healthCheck (response : Response) : Except String (Option Json) :=
  handleResponse response

/-- `ApiService.getResearchAreas`. -/
def getResearchAreas (response : Response) : Except String (Option Json) :=
  handleResponse response

/-- The transition table as the specification states it: form→loading
on submit, loading→results on success, loading→error on a thrown
error, and results/error→form on the back/retry action. -/
def ClaimedTransition (s s' : AppModel) (e : Event) : Prop :=
  (s.state = AppState.form ∧ s'.state = AppState.loading ∧ e.isSubmit = true) ∨
  (s.state = AppState.loading ∧ s'.state = AppState.results ∧ e.isSuccess = true) ∨
  (s.state = AppState.loading ∧ s'.state = AppState.error ∧ e.isFailure = true) ∨
  ((s.state = AppState.results ∨ s.state = AppState.error) ∧
    s'.state = AppState.form ∧ (e = Event.back ∨ e = Event.retry))

/-- The transition table the code implements: as claimed, except that
retry from `error` goes back to `form` only when no `UserInfo` is
stored, and re-enters `loading` when one is. -/
def ActualTransition (s s' : AppModel) (e : Event) : Prop :=
  (s.state = AppState.form ∧ s'.state = AppState.loading ∧ e.isSubmit = true) ∨
  (s.state = AppState.loading ∧ s'.state = AppState.results ∧ e.isSuccess = true) ∨
  (s.state = AppState.loading ∧ s'.state = AppState.error ∧ e.isFailure = true) ∨
  (s.state = AppState.results ∧ s'.state = AppState.form ∧ e = Event.back) ∨
  (s.state = AppState.error ∧ s'.state = AppState.form ∧ e = Event.retry ∧
    s.userInfo = none) ∨
  (s.state = AppState.error ∧ s'.state = AppState.loading ∧ e = Event.retry ∧
    s.userInfo ≠ none)

/-- The tag-list invariant: every stored tag is its own trim, is
non-empty, and occurs only once. -/
def TagListOk (l : List String) : Prop :=
  (∀ v ∈ l, jsTrim v = v ∧ v ≠ "") ∧ l.Nodup

/-- Both tag lists of the form draft satisfy `TagListOk`. -/
def FormTagsOk (s : FormState) : Prop :=
  TagListOk s.formData.research_interests ∧ TagListOk s.formData.skills

/-- The sample user of the end-to-end property in the spec. -/
def uAnn : UserInfo :=
  { name := "Ann", major := "Computer Science"
    research_interests := ["Machine Learning"], skills := [] }

/-- A sample professor record with a single research interest. -/
def profML : ProfessorInfo :=
  { name := "Dr. Smith", title := "Professor", position := "Faculty"
    research_interests := ["Machine Learning"], location := "Boston"
    email := none, phone := none, personal_website := none, google_scholar := none }

/-- A sample professor record with seven research interests. -/
def profSeven : ProfessorInfo :=
  { name := "Dr. Jones", title := "Associate Professor", position := "Faculty"
    research_interests := ["AI", "ML", "NLP", "Vision", "Robotics", "Systems", "Theory"]
    location := "Boston"
    email := none, phone := none, personal_website := none, google_scholar := none }

lemma dropWhile_cons_head {α : Type} (p : α → Bool) :
    ∀ (l : List α) (c : α) (rest : List α),
      List.dropWhile p l = c :: rest → p c = false := by
  intro l
  induction l with
  | nil => intro c rest h; simp [List.dropWhile] at h
  | cons a as ih =>
    intro c rest h
    rw [List.dropWhile_cons] at h
    by_cases hpa : p a
    · rw [if_pos hpa] at h
      exact ih c rest h
    · rw [if_neg hpa] at h
      injection h with h1 h2
      subst h1
      simpa using hpa

lemma jsTrimChars_idem (l : List Char) :
    jsTrimChars (jsTrimChars l) = jsTrimChars l := by
  have key : List.dropWhile Char.isWhitespace
        (List.rdropWhile Char.isWhitespace (List.dropWhile Char.isWhitespace l)) =
      List.rdropWhile Char.isWhitespace (List.dropWhile Char.isWhitespace l) := by
    cases hR : List.rdropWhile Char.isWhitespace (List.dropWhile Char.isWhitespace l) with
    | nil => simp
    | cons c rest =>
      obtain ⟨t, ht⟩ := List.rdropWhile_prefix Char.isWhitespace
        (List.dropWhile Char.isWhitespace l)
      rw [hR] at ht
      have hpc : Char.isWhitespace c = false := by
        apply dropWhile_cons_head Char.isWhitespace l c (rest ++ t)
        rw [← ht]
        simp
      rw [List.dropWhile_cons, hpc]
      simp
  unfold jsTrimChars
  rw [key, List.rdropWhile_idempotent]

lemma jsTrim_idem (s : String) : jsTrim (jsTrim s) = jsTrim s := by
  unfold jsTrim
  exact congrArg String.mk (jsTrimChars_idem s.data)

lemma jsTruthy_iff (s : String) : jsTruthy s = true ↔ s ≠ "" := by
  simp [jsTruthy]

lemma jsTruthy_false_iff (s : String) : jsTruthy s = false ↔ s = "" := by
  simp [jsTruthy]


lemma contains_eq_false_iff (l : List String) (a : String) :
    l.contains a = false ↔ a ∉ l := by
  rw [← Bool.not_eq_true, List.elem_iff]

/-- C4: submitting the form with an empty name or an empty major never
invokes the `onSubmit` callback; the callback is invoked only when both
name and major are non-empty (and then with the form data itself). -/
theorem submit_requires_name_and_major (formData : UserInfo) :
    (formData.name = "" ∨ formData.major = "" → handleSubmit formData = none) ∧
    (∀ u, handleSubmit formData = some u →
      formData.name ≠ "" ∧ formData.major ≠ "" ∧ u = formData) := by
  constructor
  · intro h
    unfold handleSubmit
    rcases h with h | h <;> simp [jsTruthy, h]
  · intro u hu
    unfold handleSubmit at hu
    by_cases h1 : (jsTruthy formData.name && jsTruthy formData.major) = true
    · rw [if_pos h1] at hu
      injection hu with hu2
      rcases Bool.and_eq_true_iff.mp h1 with ⟨ha, hb⟩
      exact ⟨by simpa [jsTruthy] using ha, by simpa [jsTruthy] using hb, hu2.symm⟩
    · rw [if_neg h1] at hu
      exact absurd hu (by simp)

theorem submit_requires_name_and_major_witness :
    handleSubmit (⟨"", "Computer Science", [], []⟩ : UserInfo) = none ∧
    (uAnn.name ≠ "" ∧ uAnn.major ≠ "" ∧ uAnn = uAnn) :=
  ⟨(submit_requires_name_and_major _).1 (Or.inl rfl),
   (submit_requires_name_and_major uAnn).2 uAnn (by decide)⟩

/-- C5: adding a research interest or a skill is a no-op — the whole
component state is unchanged — when the trimmed candidate is the empty
string or is already present in the list (case-sensitive exact
equality). -/
theorem addTag_noop_empty_or_duplicate (s : FormState) (interest : Option String) :
    (jsTrim (interestToAdd s interest) = "" ∨
        jsTrim (interestToAdd s interest) ∈ s.formData.research_interests →
      addResearchInterest s interest = s) ∧
    (jsTrim s.currentSkill = "" ∨ jsTrim s.currentSkill ∈ s.formData.skills →
      addSkill s = s) := by
  constructor
  · intro h
    have hguard : (jsTruthy (jsTrim (interestToAdd s interest)) &&
        !(s.formData.research_interests.contains (jsTrim (interestToAdd s interest)))) = false := by
      rcases h with h | h
      · simp [jsTruthy, h]
      · have hc := List.elem_eq_true_of_mem h
        simp [hc]
        exact fun _ => h
    simp only [addResearchInterest]
    split
    case isTrue hg => exact absurd hg (by rw [hguard]; simp)
    case isFalse _ => rfl
  · intro h
    have hguard : (jsTruthy (jsTrim s.currentSkill) &&
        !(s.formData.skills.contains (jsTrim s.currentSkill))) = false := by
      rcases h with h | h
      · simp [jsTruthy, h]
      · have hc := List.elem_eq_true_of_mem h
        simp [hc]
        exact fun _ => h
    simp only [addSkill]
    split
    case isTrue hg => exact absurd hg (by rw [hguard]; simp)
    case isFalse _ => rfl

theorem addTag_noop_empty_or_duplicate_witness :
    addResearchInterest
      (⟨⟨"Ann", "Computer Science", ["Machine Learning"], []⟩,
        "", "   ", [], [], false, false⟩ : FormState)
      (some " Machine Learning ") =
      (⟨⟨"Ann", "Computer Science", ["Machine Learning"], []⟩,
        "", "   ", [], [], false, false⟩ : FormState) ∧
    addSkill
      (⟨⟨"Ann", "Computer Science", ["Machine Learning"], []⟩,
        "", "   ", [], [], false, false⟩ : FormState) =
      (⟨⟨"Ann", "Computer Science", ["Machine Learning"], []⟩,
        "", "   ", [], [], false, false⟩ : FormState) :=
  ⟨(addTag_noop_empty_or_duplicate _ _).1 (Or.inr (by decide)),
   (addTag_noop_empty_or_duplicate _ (some " Machine Learning ")).2 (Or.inl (by decide))⟩

lemma filter_bne_eq_self (l : List String) (v : String) (h : v ∉ l) :
    l.filter (fun x => x != v) = l := by
  apply List.filter_eq_self.mpr
  intro a ha
  simp only [bne_iff_ne, ne_eq, decide_eq_true_eq]
  intro hav
  exact h (hav ▸ ha)

/-- C6: removing a tag filters by exact string equality: a value not in
the list leaves the component state unchanged; removal never leaves an
occurrence of the removed value, only drops elements (a sublist
remains), and keeps the membership of every other value intact. -/
theorem removeTag_exact_match (s : FormState) (v : String) :
    (v ∉ s.formData.research_interests → removeResearchInterest s v = s) ∧
    (v ∉ s.formData.skills → removeSkill s v = s) ∧
    v ∉ (removeResearchInterest s v).formData.research_interests ∧
    v ∉ (removeSkill s v).formData.skills ∧
    List.Sublist (removeResearchInterest s v).formData.research_interests
      s.formData.research_interests ∧
    List.Sublist (removeSkill s v).formData.skills s.formData.skills ∧
    (∀ x, x ≠ v → ((x ∈ (removeResearchInterest s v).formData.research_interests) ↔
      x ∈ s.formData.research_interests)) ∧
    (∀ x, x ≠ v → ((x ∈ (removeSkill s v).formData.skills) ↔ x ∈ s.formData.skills)) := by
  refine ⟨?_, ?_, ?_, ?_, ?_, ?_, ?_, ?_⟩
  · intro h
    unfold removeResearchInterest
    rw [filter_bne_eq_self _ _ h]
  · intro h
    unfold removeSkill
    rw [filter_bne_eq_self _ _ h]
  · simp [removeResearchInterest, List.mem_filter]
  · simp [removeSkill, List.mem_filter]
  · exact List.filter_sublist _
  · exact List.filter_sublist _
  · intro x hx
    simp [removeResearchInterest, List.mem_filter, hx]
  · intro x hx
    simp [removeSkill, List.mem_filter, hx]

theorem removeTag_exact_match_witness :
    removeResearchInterest
      (⟨⟨"Ann", "Computer Science", ["Machine Learning"], ["Python"]⟩,
        "", "", [], [], false, false⟩ : FormState) "Robotics" =
      (⟨⟨"Ann", "Computer Science", ["Machine Learning"], ["Python"]⟩,
        "", "", [], [], false, false⟩ : FormState) ∧
    removeSkill
      (⟨⟨"Ann", "Computer Science", ["Machine Learning"], ["Python"]⟩,
        "", "", [], [], false, false⟩ : FormState) "Java" =
      (⟨⟨"Ann", "Computer Science", ["Machine Learning"], ["Python"]⟩,
        "", "", [], [], false, false⟩ : FormState) :=
  ⟨(removeTag_exact_match _ "Robotics").1 (by decide),
   (removeTag_exact_match _ "Java").2.1 (by decide)⟩

/-- C7: when the research-areas fetch fails, the effect silently
substitutes the fixed ten-item fallback list (for both the available
and the filtered suggestions), stores no error anywhere (the form data
is untouched and `FormState` has no error field), and clears the
loading flag, so the interest input is no longer disabled and the form
stays usable. -/
theorem researchAreas_fallback_on_failure (e : String) (s : FormState) :
    (fetchResearchAreasEffect (Except.error e) s).availableResearchAreas =
      fallbackResearchAreas ∧
    (fetchResearchAreasEffect (Except.error e) s).filteredResearchAreas =
      fallbackResearchAreas ∧
    (fetchResearchAreasEffect (Except.error e) s).loadingResearchAreas = false ∧
    interestInputDisabled (fetchResearchAreasEffect (Except.error e) s) = false ∧
    (fetchResearchAreasEffect (Except.error e) s).formData = s.formData ∧
    fallbackResearchAreas.length = 10 :=
  ⟨rfl, rfl, rfl, rfl, rfl, rfl⟩

/-- C8: the results grid renders one card per professor in the
response; the interest tags of each card are exactly the first
`min 5 length` research interests in order, and the `+N more` tag
appears exactly when the list has more than five entries, with
`N = length - 5`. -/
theorem results_cards_slice :
    (∀ professors : List ProfessorInfo,
      (professorsGrid professors).length = professors.length) ∧
    (∀ p : ProfessorInfo,
      (renderProfessorCard p).interestTags.length = min 5 p.research_interests.length ∧
      (∀ i : Nat, i < (renderProfessorCard p).interestTags.length →
        (renderProfessorCard p).interestTags[i]? = p.research_interests[i]?) ∧
      (5 < p.research_interests.length →
        (renderProfessorCard p).moreTag = some (p.research_interests.length - 5)) ∧
      (p.research_interests.length ≤ 5 → (renderProfessorCard p).moreTag = none)) := by
  constructor
  · intro professors
    simp [professorsGrid]
  · intro p
    refine ⟨?_, ?_, ?_, ?_⟩
    · simp [renderProfessorCard]
    · intro i hi
      simp only [renderProfessorCard, List.length_take] at hi
      exact List.getElem?_take_of_lt (lt_of_lt_of_le hi (min_le_left _ _))
    · intro h
      simp [renderProfessorCard, h]
    · intro h
      simp [renderProfessorCard]
      omega

theorem results_cards_slice_witness :
    (professorsGrid [profML, profSeven]).length = 2 ∧
    (renderProfessorCard profSeven).interestTags[0]? =
      profSeven.research_interests[0]? ∧
    (renderProfessorCard profSeven).moreTag = some 2 ∧
    (renderProfessorCard profML).moreTag = none :=
  ⟨(results_cards_slice.1 [profML, profSeven]).trans rfl,
   (results_cards_slice.2 profSeven).2.1 0 (by decide),
   (results_cards_slice.2 profSeven).2.2.1 (by decide),
   (results_cards_slice.2 profML).2.2.2 (by decide)⟩

/-- C2: every API client method rejects a non-2xx response with exactly
the server-supplied `detail` string when the error body parses as JSON
carrying one, and with `"HTTP error! status: N"` when the error body is
unparsable. -/
theorem apiClient_rejects_with_detail (r : Response) (hok : r.ok = false) :
    (∀ (j : Json) (d : String), r.body = some j →
        extractDetailJson j = some (Json.str d) →
        createUser r = Except.error d ∧ getUser r = Except.error d ∧
        getProfessorRecommendations r = Except.error d ∧
        searchProfessors r = Except.error d ∧ getAllProfessors r = Except.error d ∧
        healthCheck r = Except.error d ∧ getResearchAreas r = Except.error d) ∧
    (r.body = none →
        createUser r = Except.error ("HTTP error! status: " ++ toString r.status) ∧
        getUser r = Except.error ("HTTP error! status: " ++ toString r.status) ∧
        getProfessorRecommendations r =
          Except.error ("HTTP error! status: " ++ toString r.status) ∧
        searchProfessors r = Except.error ("HTTP error! status: " ++ toString r.status) ∧
        getAllProfessors r = Except.error ("HTTP error! status: " ++ toString r.status) ∧
        healthCheck r = Except.error ("HTTP error! status: " ++ toString r.status) ∧
        getResearchAreas r = Except.error ("HTTP error! status: " ++ toString r.status)) := by
  have hdetail : ∀ (j : Json) (d : String), r.body = some j →
      extractDetailJson j = some (Json.str d) → handleResponse r = Except.error d := by
    intro j d hb hd
    unfold handleResponse
    rw [hok, hb]
    simp [hd, jsErrorMessage, jsonToJsString]
  have hgeneric : r.body = none →
      handleResponse r = Except.error ("HTTP error! status: " ++ toString r.status) := by
    intro hb
    unfold handleResponse
    rw [hok, hb]
    rfl
  constructor
  · intro j d hb hd
    have h := hdetail j d hb hd
    exact ⟨h, h, h, h, h, h, h⟩
  · intro hb
    have h := hgeneric hb
    exact ⟨h, h, h, h, h, h, h⟩

theorem apiClient_rejects_with_detail_witness :
    createUser
        (⟨false, 422, some (Json.obj [("detail", Json.str "bad input")])⟩ : Response) =
      Except.error "bad input" ∧
    getProfessorRecommendations (⟨false, 500, none⟩ : Response) =
      Except.error "HTTP error! status: 500" :=
  ⟨((apiClient_rejects_with_detail _ rfl).1
      (Json.obj [("detail", Json.str "bad input")]) "bad input" rfl rfl).1,
   (((apiClient_rejects_with_detail _ rfl).2 rfl).2).2.1⟩

/-- C1 as stated is false on the code: from a reachable `error` state
holding a stored `UserInfo` (reached by a submit followed by a failed
request), the retry action changes the state, but the change is not in
the claimed transition table — it re-enters `loading` instead of
returning to `form`. -/
theorem appTransitions_counterexample :
    (appRun initApp [Event.submit uAnn, Event.failure "Network Error"]).state =
      AppState.error ∧
    (step (appRun initApp [Event.submit uAnn, Event.failure "Network Error"])
        Event.retry).1.state = AppState.loading ∧
    ((step (appRun initApp [Event.submit uAnn, Event.failure "Network Error"])
        Event.retry).1.state ≠
      (appRun initApp [Event.submit uAnn, Event.failure "Network Error"]).state) ∧
    ¬ ClaimedTransition (appRun initApp [Event.submit uAnn, Event.failure "Network Error"])
        (step (appRun initApp [Event.submit uAnn, Event.failure "Network Error"])
          Event.retry).1
        Event.retry := by
  unfold ClaimedTransition
  decide

/-- C1 amended: the orchestrator state ranges over the four values
`form`, `loading`, `results`, `error`, and every state change is one of:
form→loading on submit, loading→results on success (any recommendation
count), loading→error on a thrown error, results→form on back,
error→form on retry with no stored `UserInfo` — and additionally
error→loading on retry with a stored `UserInfo` (the retry resubmits
it); no other state change ever occurs. -/
theorem appTransitions_actual (s : AppModel) (e : Event)
    (h : (step s e).1.state ≠ s.state) : ActualTransition s (step s e).1 e := by
  cases e with
  | submit u =>
    by_cases hs : s.state = AppState.form
    · exact Or.inl ⟨hs, by simp [step, if_pos hs, handleUserSubmitStart], rfl⟩
    · exact absurd (by simp [step, if_neg hs] : (step s (Event.submit u)).1.state = s.state) h
  | success response =>
    by_cases hs : s.state = AppState.loading
    · refine Or.inr (Or.inl ⟨hs, ?_, rfl⟩)
      simp only [step, if_pos hs]
      unfold handleUserSubmitSuccess
      split <;> rfl
    · exact absurd (by simp [step, if_neg hs] :
        (step s (Event.success response)).1.state = s.state) h
  | failure message =>
    by_cases hs : s.state = AppState.loading
    · exact Or.inr (Or.inr (Or.inl
        ⟨hs, by simp [step, if_pos hs, handleUserSubmitFailure], rfl⟩))
    · exact absurd (by simp [step, if_neg hs] :
        (step s (Event.failure message)).1.state = s.state) h
  | back =>
    by_cases hs : s.state = AppState.results
    · exact Or.inr (Or.inr (Or.inr (Or.inl
        ⟨hs, by simp [step, if_pos hs, handleBack], rfl⟩)))
    · exact absurd (by simp [step, if_neg hs] : (step s Event.back).1.state = s.state) h
  | retry =>
    by_cases hs : s.state = AppState.error
    · cases hu : s.userInfo with
      | none =>
        refine Or.inr (Or.inr (Or.inr (Or.inr (Or.inl ⟨hs, ?_, rfl, hu⟩))))
        simp [step, if_pos hs, handleRetry, hu]
      | some u =>
        refine Or.inr (Or.inr (Or.inr (Or.inr (Or.inr ⟨hs, ?_, rfl, by simp [hu]⟩))))
        simp [step, if_pos hs, handleRetry, hu, handleUserSubmitStart]
    · exact absurd (by simp [step, if_neg hs] : (step s Event.retry).1.state = s.state) h

theorem appTransitions_actual_witness :
    ActualTransition initApp (step initApp (Event.submit uAnn)).1 (Event.submit uAnn) :=
  appTransitions_actual initApp (Event.submit uAnn) (by decide)

/-- C10: triggering retry in the `error` state with no stored
`UserInfo` goes straight back to the `form` state and issues no
network request; with a stored `UserInfo` it resubmits exactly that
value (the request payload is that `UserInfo`, which also stays
stored) and re-enters `loading`. -/
theorem retry_resubmits_stored_user (s : AppModel) (hs : s.state = AppState.error) :
    (s.userInfo = none →
      (step s Event.retry).1.state = AppState.form ∧ (step s Event.retry).2 = none) ∧
    (∀ u, s.userInfo = some u →
      (step s Event.retry).1.state = AppState.loading ∧
      (step s Event.retry).2 = some u ∧
      (step s Event.retry).1.userInfo = some u) := by
  constructor
  · intro hu
    constructor <;> simp [step, if_pos hs, handleRetry, hu]
  · intro u hu
    refine ⟨?_, ?_, ?_⟩ <;>
      simp [step, if_pos hs, handleRetry, hu, handleUserSubmitStart]

theorem retry_resubmits_stored_user_witness :
    ((step (⟨AppState.error, [], "boom", none⟩ : AppModel) Event.retry).1.state =
        AppState.form ∧
      (step (⟨AppState.error, [], "boom", none⟩ : AppModel) Event.retry).2 = none) ∧
    ((step (⟨AppState.error, [], "boom", some uAnn⟩ : AppModel) Event.retry).1.state =
        AppState.loading ∧
      (step (⟨AppState.error, [], "boom", some uAnn⟩ : AppModel) Event.retry).2 =
        some uAnn ∧
      (step (⟨AppState.error, [], "boom", some uAnn⟩ : AppModel) Event.retry).1.userInfo =
        some uAnn) :=
  ⟨(retry_resubmits_stored_user _ rfl).1 rfl,
   (retry_resubmits_stored_user _ rfl).2 uAnn rfl⟩

/-- C3 as stated is false on the code: the display branches on the
length of the recommendations list, never on `match_count`. A response
with `match_count = 0` but a non-empty recommendations list renders
the populated cards branch, not the no-results branch. -/
theorem matchCount_zero_counterexample :
    (⟨[profML], 0⟩ : ProfessorRecommendationResponse).match_count = 0 ∧
    (appRun initApp [Event.submit uAnn]).state = AppState.loading ∧
    renderMain (step (appRun initApp [Event.submit uAnn])
        (Event.success (⟨[profML], 0⟩ : ProfessorRecommendationResponse))).1 =
      MainView.display DisplayBranch.cards ∧
    MainView.display DisplayBranch.cards ≠ MainView.display DisplayBranch.noResults := by
  decide

/-- C3 amended: the display renders the no-results branch exactly for
responses whose recommendations list is empty — in particular for any
consistent response with `match_count = 0` — and the rendered branch
never depends on `match_count`, which the front end reads from the
server response and never recomputes or consults. -/
theorem display_noResults_on_empty_recommendations :
    (∀ (s : AppModel) (response : ProfessorRecommendationResponse),
      s.state = AppState.loading → response.recommendations = [] →
      renderMain (step s (Event.success response)).1 =
        MainView.display DisplayBranch.noResults) ∧
    (∀ (s : AppModel) (response response' : ProfessorRecommendationResponse),
      response.recommendations = response'.recommendations →
      renderMain (step s (Event.success response)).1 =
        renderMain (step s (Event.success response')).1) := by
  constructor
  · intro s response hs hr
    simp [step, if_pos hs, handleUserSubmitSuccess, hr, renderMain,
      professorDisplayBranch, jsTruthyOpt]
  · intro s response response' hr
    by_cases hs : s.state = AppState.loading
    · simp [step, if_pos hs, handleUserSubmitSuccess, hr]
    · simp [step, if_neg hs]

theorem display_noResults_on_empty_recommendations_witness :
    renderMain (step (appRun initApp [Event.submit uAnn])
        (Event.success (⟨[], 0⟩ : ProfessorRecommendationResponse))).1 =
      MainView.display DisplayBranch.noResults :=
  display_noResults_on_empty_recommendations.1 _ _ (by decide) rfl

lemma tagListOk_append (l : List String) (t : String) (h : TagListOk l)
    (ht1 : jsTrim t ≠ "") (ht2 : jsTrim t ∉ l) : TagListOk (l ++ [jsTrim t]) := by
  constructor
  · intro v hv
    rcases List.mem_append.mp hv with hv | hv
    · exact h.1 v hv
    · rcases List.mem_singleton.mp hv with rfl
      exact ⟨jsTrim_idem t, ht1⟩
  · rw [List.nodup_append]
    refine ⟨h.2, List.nodup_singleton _, ?_⟩
    simp [List.disjoint_singleton]
    exact ht2

lemma tagListOk_filter (l : List String) (p : String → Bool) (h : TagListOk l) :
    TagListOk (l.filter p) :=
  ⟨fun v hv => h.1 v (List.mem_of_mem_filter hv), h.2.filter p⟩

lemma formTagsOk_applyFormEvent (s : FormState) (e : FormEvent) (h : FormTagsOk s) :
    FormTagsOk (applyFormEvent s e) := by
  cases e with
  | inputInterest value => exact h
  | inputSkill value => exact h
  | removeInterest value => exact ⟨tagListOk_filter _ _ h.1, h.2⟩
  | removeSkill value => exact ⟨h.1, tagListOk_filter _ _ h.2⟩
  | addInterest interest =>
    show FormTagsOk (addResearchInterest s interest)
    simp only [addResearchInterest]
    split
    case isTrue hg =>
      rcases Bool.and_eq_true_iff.mp hg with ⟨h1, h2⟩
      refine ⟨tagListOk_append _ _ h.1 (by simpa [jsTruthy] using h1) ?_, h.2⟩
      rw [Bool.not_eq_true'] at h2
      exact (contains_eq_false_iff _ _).mp h2
    case isFalse _ => exact h
  | addSkill =>
    show FormTagsOk (addSkill s)
    simp only [addSkill]
    split
    case isTrue hg =>
      rcases Bool.and_eq_true_iff.mp hg with ⟨h1, h2⟩
      refine ⟨h.1, tagListOk_append _ _ h.2 (by simpa [jsTruthy] using h1) ?_⟩
      rw [Bool.not_eq_true'] at h2
      exact (contains_eq_false_iff _ _).mp h2
    case isFalse _ => exact h

lemma formTagsOk_foldl (events : List FormEvent) :
    ∀ s : FormState, FormTagsOk s → FormTagsOk (events.foldl applyFormEvent s) := by
  induction events with
  | nil => intro s h; exact h
  | cons e es ih => intro s h; exact ih _ (formTagsOk_applyFormEvent s e h)

/-- C9: after any sequence of tag-editing events starting from the
empty form, both the research-interest list and the skill list contain
only non-empty, already-trimmed strings (each stored value equals its
own trim) and contain no duplicates under exact string equality. -/
theorem tagLists_trimmed_and_unique (events : List FormEvent) :
    TagListOk ((events.foldl applyFormEvent initialFormState).formData.research_interests) ∧
    TagListOk ((events.foldl applyFormEvent initialFormState).formData.skills) := by
  have hinit : FormTagsOk initialFormState := by
    constructor <;>
      exact ⟨fun v hv => absurd hv (List.not_mem_nil v), List.nodup_nil⟩
  exact formTagsOk_foldl events initialFormState hinit

theorem researchAreas_fallback_on_failure_witness :
    (fetchResearchAreasEffect (Except.error "Network Error")
        initialFormState).availableResearchAreas = fallbackResearchAreas ∧
    (fetchResearchAreasEffect (Except.error "Network Error")
        initialFormState).filteredResearchAreas = fallbackResearchAreas ∧
    (fetchResearchAreasEffect (Except.error "Network Error")
        initialFormState).loadingResearchAreas = false ∧
    interestInputDisabled
      (fetchResearchAreasEffect (Except.error "Network Error") initialFormState) = false ∧
    (fetchResearchAreasEffect (Except.error "Network Error")
        initialFormState).formData = initialFormState.formData ∧
    fallbackResearchAreas.length = 10 :=
  researchAreas_fallback_on_failure "Network Error" initialFormState

theorem tagLists_trimmed_and_unique_witness :
    TagListOk (([FormEvent.inputInterest " AI ", FormEvent.addInterest none,
        FormEvent.inputSkill "Python",
        FormEvent.addSkill].foldl applyFormEvent initialFormState).formData.research_interests) ∧
    TagListOk (([FormEvent.inputInterest " AI ", FormEvent.addInterest none,
        FormEvent.inputSkill "Python",
        FormEvent.addSkill].foldl applyFormEvent initialFormState).formData.skills) :=
  tagLists_trimmed_and_unique [FormEvent.inputInterest " AI ", FormEvent.addInterest none,
    FormEvent.inputSkill "Python", FormEvent.addSkill]
